import Mathlib

/-!
# Verification of the mini_cqrs_es event-sourcing runtime

Shallow embedding of the CQRS/event-sourcing pipeline of the repository:
the `Event` envelope (`src/event.rs`, `src/events.rs`), the `Aggregate`
contract (`src/aggregate.rs`, `src/aggregate/mod.rs`), the in-memory
`EventStore` (`examples/lib/common.rs`), the snapshot store and the two
`AggregateManager` variants (`src/aggregate/manager.rs`,
`src/aggregate/snapshot.rs`), the `SimpleDispatcher` (`src/dispatcher.rs`)
and the `Cqrs` orchestrator (`src/cqrs.rs`), together with the example
`Game` aggregate (`examples/common_game.rs`).

Modelling conventions:
* Rust `Result<T, CqrsError>` becomes `Except CqrsError T`; a reachable
  `unwrap` panic (as in `Event::get_payload`) is modelled by `Option`/the
  `panic` constructor of `Outcome` below.
* `serde_json::Value` payloads are an opaque type parameter `P` with a
  decode function `P → Option E` standing for `serde_json::from_value`;
  `serde_json::to_value` followed by `from_value` on a value produced by the
  program itself round-trips, which the typed payload embedding captures by
  storing the value directly.
* `Uuid::new_v4` (a fresh random identifier for an event envelope) is
  modelled by a constant placeholder string: no claim depends on envelope
  ids being distinct.
* `HashMap` keyed stores are modelled as association lists; the async
  layer is erased (each `execute` is a single sequential function, which is
  the ordering guarantee the code relies on).
* `CqrsError` in `src/error.rs` is a plain string wrapper, but
  `src/cqrs.rs` matches on the variants `StoreOperation`,
  `CommandValidation` and `CommandDispatch` of a richer enum; the inductive
  below carries exactly the variants the modelled code constructs.
-/

namespace MiniCqrs

/-- Error kinds as constructed by the modelled code: `Generic` stands for
the plain string `CqrsError` of `src/error.rs`, the other constructors are
the ones `src/cqrs.rs` builds. -/
inductive CqrsError where
  | generic (msg : String)
  | storeOperation (aggregate_id : String) (source : CqrsError)
  | commandValidation (aggregate_id : String) (reason : String)
  | commandDispatch (msg : String)
deriving DecidableEq, Repr

/-- Outcome of a Rust computation that can return a value, return an error,
or panic (an `unwrap` on a failing decode). -/
inductive Outcome (ε α : Type) where
  | panic
  | err (e : ε)
  | ok (a : α)
deriving DecidableEq, Repr

/-- The event envelope of `src/event.rs` / `src/events.rs`: identifier,
type discriminator, owning aggregate id, opaque payload, version.
(The optional timestamp of `src/events.rs` carries no information any
claim depends on and is omitted.) -/
structure Event (P : Type) where
  id : String
  event_type : String
  aggregate_id : String
  payload : P
  version : Nat
deriving DecidableEq, Repr

/-- The `EventPayload` trait of `src/event.rs`: a payload reports its
owning aggregate id and its symbolic name. -/
structure EventPayloadImpl (P : Type) where
  aggregate_id : P → String
  name : P → String

/-- `Event::new(payload, version)` (`src/event.rs` line 14): the version
defaults to 1 when `None` is passed (as the `wrap_event!`/`Into` path
always does); `Uuid::new_v4().to_string()` is modelled by `""`. -/
def Event.new (ep : EventPayloadImpl P) (payload : P) (version : Option Nat) : Event P :=
  { id := ""
    event_type := ep.name payload
    aggregate_id := ep.aggregate_id payload
    payload := payload
    version := version.getD 1 }

/-- The `Aggregate` trait (`src/aggregate.rs`): default state, command
handler, event application, identity accessors, and the payload decoder
`serde_json::from_value` used by `Event::get_payload` (`none` models a
decode failure, on which the Rust code `unwrap`s, i.e. panics). -/
structure AggregateImpl (A C E P : Type) where
  default : A
  handle : A → C → Except CqrsError (List (Event P))
  apply : A → E → A
  aggregate_id : A → String
  set_aggregate_id : A → String → A
  get_payload : P → Option E

/-- `Aggregate::apply_events` (`src/aggregate.rs` lines 128-132): decode
each envelope's payload with `Event::get_payload` and apply it in order.
`get_payload` is `serde_json::from_value(...).unwrap()`, so a failing
decode is a panic, modelled by `none`. -/
def applyEvents (ai : AggregateImpl A C E P) (a : A) (events : List (Event P)) : Option A :=
  events.foldlM (fun st e => (ai.get_payload e.payload).map (fun p => ai.apply st p)) a

/-- The in-memory event store of `examples/lib/common.rs`: a map from
aggregate id to the list of its events, modelled as an association list. -/
abbrev EventStoreState (P : Type) := List (String × List (Event P))

/-- Lookup of an aggregate's event list (`HashMap::get`). -/
def esLookup : EventStoreState P → String → Option (List (Event P))
  | [], _ => none
  | (k, l) :: rest, id => if k = id then some l else esLookup rest id

/-- `InMemoryEventStore::save_events`: extend the existing entry or insert
a fresh one (`examples/lib/common.rs` lines 28-39). The in-memory store
never fails. -/
def esSave : EventStoreState P → String → List (Event P) → EventStoreState P
  | [], id, evs => [(id, evs)]
  | (k, l) :: rest, id, evs =>
    if k = id then (k, l ++ evs) :: rest else (k, l) :: esSave rest id evs

/-- `InMemoryEventStore::load_events`: the stored list, or an error when
no events exist for the id (`examples/lib/common.rs` lines 41-50). -/
def loadEvents (s : EventStoreState P) (id : String) : Except CqrsError (List (Event P)) :=
  match esLookup s id with
  | some evs => .ok evs
  | none => .error (.generic ("No events for aggregate id `" ++ id ++ "`"))

/-- The events currently stored for an identity (empty when absent). -/
def storedLog (s : EventStoreState P) (id : String) : List (Event P) :=
  (esLookup s id).getD []

/-- The stored versions for an identity, in storage order. -/
def storedVersions (s : EventStoreState P) (id : String) : List Nat :=
  (storedLog s id).map (·.version)

end MiniCqrs

namespace MiniCqrs

/-! ## The example Game aggregate (`examples/common_game.rs`) -/

structure Player where
  id : String
  points : Nat
deriving DecidableEq, Repr

inductive GameStatus where
  | Playing
  | Winner (p : Player)
deriving DecidableEq, Repr

structure GameState where
  id : String
  player_1 : Player
  player_2 : Player
  status : GameStatus
  goal : Nat
deriving DecidableEq, Repr

inductive GameEvent where
  | GameStarted (aggregate_id : String) (player_1 : Player) (player_2 : Player) (goal : Nat)
  | PlayerAttacked (aggregate_id : String) (attacker : Player)
  | GameEndedWithWinner (aggregate_id : String) (winner : Player)
deriving DecidableEq, Repr

inductive GameCommand where
  | StartGame (player_1 : Player) (player_2 : Player) (goal : Nat)
  | AttackPlayer (attacker : Player)
deriving DecidableEq, Repr

/-- `serde_json::Value` restricted to what the game examples put into it:
a serialised `GameEvent`, or any other JSON value (which then fails to
decode as a `GameEvent`). -/
inductive GameJson where
  | game (e : GameEvent)
  | other
deriving DecidableEq, Repr

/-- `impl ToString for GameEvent` (`examples/common_game.rs` lines 50-58). -/
def GameEvent.name : GameEvent → String
  | .GameStarted .. => "GameStarted"
  | .PlayerAttacked .. => "PlayerAttacked"
  | .GameEndedWithWinner .. => "GameEndedWithWinner"

/-- `impl EventPayload for GameEvent` (`examples/common_game.rs` lines 60-68). -/
def GameEvent.aggregateId : GameEvent → String
  | .GameStarted aggregate_id .. => aggregate_id
  | .PlayerAttacked aggregate_id _ => aggregate_id
  | .GameEndedWithWinner aggregate_id _ => aggregate_id

def gameEventPayloadImpl : EventPayloadImpl GameJson where
  aggregate_id := fun p =>
    match p with
    | .game e => e.aggregateId
    | .other => ""
  name := fun p =>
    match p with
    | .game e => e.name
    | .other => ""

/-- The `GameEvent → Event` conversion generated by `wrap_event!`
(`src/events.rs` lines 100-115): `Event::new(self, None)`. -/
def GameEvent.intoEvent (e : GameEvent) : Event GameJson :=
  Event.new gameEventPayloadImpl (.game e) none

/-- `impl Default for GameState` (`examples/common_game.rs` lines 95-111). -/
def GameState.default : GameState :=
  { id := ""
    player_1 := { id := "player_1", points := 0 }
    player_2 := { id := "player_2", points := 0 }
    status := .Playing
    goal := 0 }

def GameStatus.name : GameStatus → String
  | .Playing => "Playing"
  | .Winner _ => "Winner"

/-- `GameState::handle` (`examples/common_game.rs` lines 119-173): reject
any command once the game is finished; `StartGame` emits one `GameStarted`
event; `AttackPlayer` bumps the attacker's points and emits
`PlayerAttacked`, plus `GameEndedWithWinner` when the goal is reached. -/
def GameState.handle (s : GameState) (command : GameCommand) :
    Except CqrsError (List (Event GameJson)) :=
  if s.status ≠ GameStatus.Playing then
    .error (.generic ("Game is already finished with state " ++ s.status.name))
  else
    match command with
    | .StartGame player_1 player_2 goal =>
      .ok [(GameEvent.GameStarted s.id player_1 player_2 goal).intoEvent]
    | .AttackPlayer attacker =>
      let player := if s.player_1.id = attacker.id then s.player_1 else s.player_2
      let player := { player with points := player.points + 1 }
      let events := [(GameEvent.PlayerAttacked s.id player).intoEvent]
      let events :=
        if player.points ≥ s.goal then
          events ++ [(GameEvent.GameEndedWithWinner s.id player).intoEvent]
        else events
      .ok events

/-- `GameState::apply` (`examples/common_game.rs` lines 175-207). -/
def GameState.applyEvent (s : GameState) (event : GameEvent) : GameState :=
  match event with
  | .GameStarted _ player_1 player_2 goal =>
    { s with status := .Playing, goal := goal, player_1 := player_1, player_2 := player_2 }
  | .PlayerAttacked _ attacker =>
    if s.player_1.id = attacker.id then
      { s with player_1 := { s.player_1 with points := s.player_1.points + 1 } }
    else
      { s with player_2 := { s.player_2 with points := s.player_2.points + 1 } }
  | .GameEndedWithWinner _ winner => { s with status := .Winner winner }

/-- The `Aggregate` implementation of `GameState`. -/
def gameImpl : AggregateImpl GameState GameCommand GameEvent GameJson where
  default := GameState.default
  handle := GameState.handle
  apply := GameState.applyEvent
  aggregate_id := GameState.id
  set_aggregate_id := fun s id => { s with id := id }
  get_payload := fun p =>
    match p with
    | .game e => some e
    | .other => none

end MiniCqrs

namespace MiniCqrs

/-! ## SimpleDispatcher (`src/dispatcher.rs`)

Consumers (`src/consumer.rs` `EventConsumer`) are values of a state type
`CS` with an infallible `process` that mutates the consumer; the
dispatcher holds a list of them. -/

structure SimpleDispatcherState (P CS : Type) where
  event_store : EventStoreState P
  consumers : List CS
deriving DecidableEq, Repr

/-- `SimpleDispatcher::load_aggregate` (`src/dispatcher.rs` lines 40-52):
replay all stored events onto a default instance, treating a
`load_events` failure as "no prior events"; then set the identity. -/
def simpleLoadAggregate (ai : AggregateImpl A C E P) (es : EventStoreState P) (id : String) :
    Option A :=
  match loadEvents es id with
  | .ok events => (applyEvents ai ai.default events).map (fun a => ai.set_aggregate_id a id)
  | .error _ => some (ai.set_aggregate_id ai.default id)

/-- `SimpleDispatcher::process_events` (`src/dispatcher.rs` lines 69-75):
every consumer processes every event in order. -/
def processEvents (proc : CS → Event P → CS) (consumers : List CS) (events : List (Event P)) :
    List CS :=
  consumers.map (fun c => events.foldl proc c)

/-- `SimpleDispatcher::execute` (`src/dispatcher.rs` lines 86-94), with
`handle_command` (lines 54-67) inlined: load, handle, save the events as
returned by the handler (no re-versioning), apply locally, notify
consumers. The final state is returned in every case. -/
def simpleExecute (ai : AggregateImpl A C E P) (proc : CS → Event P → CS)
    (st : SimpleDispatcherState P CS) (aggregate_id : String) (command : C) :
    Outcome CqrsError A × SimpleDispatcherState P CS :=
  match simpleLoadAggregate ai st.event_store aggregate_id with
  | none => (.panic, st)
  | some aggregate =>
    match ai.handle aggregate command with
    | .error e => (.err e, st)
    | .ok events =>
      let es' := esSave st.event_store (ai.aggregate_id aggregate) events
      match applyEvents ai aggregate events with
      | none => (.panic, { st with event_store := es' })
      | some aggregate' =>
        (.ok aggregate', { event_store := es', consumers := processEvents proc st.consumers events })

end MiniCqrs

namespace MiniCqrs

/-! ## Snapshots and aggregate managers
(`src/aggregate/snapshot.rs`, `src/aggregate/manager.rs`) -/

/-- `AggregateSnapshot` (`src/aggregate/snapshot.rs` lines 30-46): the
serialised aggregate state plus its identity and a version. The
`serde_json::to_value`/`from_value` round trip is modelled by storing the
state itself. -/
structure AggregateSnapshot (A : Type) where
  aggregate_id : String
  payload : A
  version : Nat
deriving DecidableEq, Repr

/-- `AggregateSnapshot::new(aggregate, version)` (`src/aggregate/snapshot.rs`
lines 52-62): the version defaults to 1 when `None` is passed. -/
def AggregateSnapshot.new (aggregate_idFn : A → String) (aggregate : A) (version : Option Nat) :
    AggregateSnapshot A :=
  { aggregate_id := aggregate_idFn aggregate
    payload := aggregate
    version := version.getD 1 }

/-- The in-memory snapshot store of `examples/lib/common_game.rs`: a map
from aggregate id to its latest snapshot. -/
abbrev SnapshotStoreState (A : Type) := List (String × AggregateSnapshot A)

def ssLookup : SnapshotStoreState A → String → Option (AggregateSnapshot A)
  | [], _ => none
  | (k, s) :: rest, id => if k = id then some s else ssLookup rest id

/-- `InMemorySnapshotStore::save_snapshot`: insert or overwrite the entry
keyed by the snapshot's aggregate id. -/
def ssSave : SnapshotStoreState A → AggregateSnapshot A → SnapshotStoreState A
  | [], snap => [(snap.aggregate_id, snap)]
  | (k, s) :: rest, snap =>
    if k = snap.aggregate_id then (k, snap) :: rest else (k, s) :: ssSave rest snap

/-- The `AggregateManager` trait (`src/aggregate/manager.rs` lines 10-24):
`load` materialises the aggregate, `store` optionally persists a snapshot.
`load` reads the event store and the snapshot store; `store` writes only
the snapshot store (both in-repo variants do; the default `store` is a
no-op). -/
structure AggregateManagerImpl (A P SS : Type) where
  load : EventStoreState P → SS → String → Outcome CqrsError A
  store : SS → A → Except CqrsError SS

/-- `SimpleAggregateManager` (`src/aggregate/manager.rs` lines 46-66):
`load` propagates a `load_events` failure (the `?` on line 57), otherwise
replays all events on a default instance whose id was set first; `store`
is the trait's no-op default. -/
def simpleAggregateManager (ai : AggregateImpl A C E P) : AggregateManagerImpl A P SS where
  load := fun es _ id =>
    match loadEvents es id with
    | .error e => .err e
    | .ok events =>
      match applyEvents ai (ai.set_aggregate_id ai.default id) events with
      | none => .panic
      | some a => .ok a
  store := fun ss _ => .ok ss

/-- `SnapshotAggregateManager` (`src/aggregate/manager.rs` lines 90-117):
`load` returns the decoded snapshot when one exists and otherwise a fresh
default instance with the identity set (it never replays events); `store`
saves `AggregateSnapshot::new(aggregate, None)`, i.e. always version 1. -/
def snapshotAggregateManager (ai : AggregateImpl A C E P) :
    AggregateManagerImpl A P (SnapshotStoreState A) where
  load := fun _ ss id =>
    match ssLookup ss id with
    | some snapshot => .ok snapshot.payload
    | none => .ok (ai.set_aggregate_id ai.default id)
  store := fun ss aggregate =>
    .ok (ssSave ss (AggregateSnapshot.new ai.aggregate_id aggregate none))

end MiniCqrs

namespace MiniCqrs

/-! ## The Cqrs orchestrator (`src/cqrs.rs`)

The consumers group (`EventConsumersGroup<M>`) processes an event and
returns follow-up command messages or an error; the mpsc command sender is
modelled by a predicate saying whether a send succeeds, with successfully
sent messages accumulated in the state. The command's `handle` closes over
the command value and the `Cqrs` context. -/

structure CqrsState (P CS M SS : Type) where
  event_store : EventStoreState P
  snapshot_store : SS
  consumer : CS
  sent : List M
deriving DecidableEq, Repr

/-- The versioning loop of `Cqrs::execute` (`src/cqrs.rs` lines 140-155):
for each produced event, fail with `CommandValidation` if its aggregate id
differs from the target, otherwise assign the next version. -/
def versionEventsGo (aggregate_id : String) :
    Nat → List (Event P) → List (Event P) → Except CqrsError (List (Event P))
  | _, acc, [] => .ok acc
  | next_version, acc, event :: rest =>
    if event.aggregate_id ≠ aggregate_id then
      .error (.commandValidation aggregate_id
        ("Event aggregate ID " ++ event.aggregate_id ++
          " does not match target aggregate ID " ++ aggregate_id))
    else
      versionEventsGo aggregate_id (next_version + 1)
        (acc ++ [{ event with version := next_version }]) rest

def versionEvents (aggregate_id : String) (current_version : Nat) (events : List (Event P)) :
    Except CqrsError (List (Event P)) :=
  versionEventsGo aggregate_id (current_version + 1) [] events

/-- The consumer loop of `Cqrs::execute` (`src/cqrs.rs` lines 170-177):
process each event in order, collecting the returned follow-up commands;
an error aborts the loop (keeping the consumer state reached so far). -/
def consumersLoop (proc : CS → Event P → Except CqrsError (CS × List M)) :
    CS → List M → List (Event P) → Except CqrsError (List M) × CS
  | cs, acc, [] => (.ok acc, cs)
  | cs, acc, event :: rest =>
    match proc cs event with
    | .error e => (.error e, cs)
    | .ok (cs', ms) => consumersLoop proc cs' (acc ++ ms) rest

/-- The dispatch loop of `Cqrs::execute` (`src/cqrs.rs` lines 179-184):
send each collected command over the bus; a failed send becomes a
`CommandDispatch` error (messages already sent stay sent). -/
def dispatchLoop (sendOk : M → Bool) : List M → List M → Except CqrsError Unit × List M
  | sent, [] => (.ok (), sent)
  | sent, m :: rest =>
    if sendOk m then dispatchLoop sendOk (sent ++ [m]) rest
    else (.error (.commandDispatch "Failed to send command via bus"), sent)

/-- `Cqrs::execute` (`src/cqrs.rs` lines 114-193): load the aggregate via
the manager; read the current version as the version of the last stored
event (0 if none), turning a `load_events` failure into a fatal
`StoreOperation` error; run the command handler; validate and version the
produced events; when at least one event was produced: save them, apply
them locally (a failing payload decode panics), notify consumers
collecting follow-up commands, send those over the bus, and ask the
manager to store a snapshot. Returns the outcome together with the final
state. -/
def cqrsExecute (am : AggregateManagerImpl A P SS) (ai : AggregateImpl A C E P)
    (handle : A → Except CqrsError (List (Event P)))
    (proc : CS → Event P → Except CqrsError (CS × List M))
    (sendOk : M → Bool)
    (st : CqrsState P CS M SS) (aggregate_id : String) :
    Outcome CqrsError String × CqrsState P CS M SS :=
  match am.load st.event_store st.snapshot_store aggregate_id with
  | .panic => (.panic, st)
  | .err e => (.err e, st)
  | .ok aggregate =>
    match loadEvents st.event_store aggregate_id with
    | .error e => (.err (.storeOperation aggregate_id e), st)
    | .ok prior =>
      let current_version := prior.getLast?.elim 0 (·.version)
      match handle aggregate with
      | .error e => (.err e, st)
      | .ok new_events =>
        match versionEvents aggregate_id current_version new_events with
        | .error e => (.err e, st)
        | .ok versioned_events =>
          if versioned_events.isEmpty then (.ok aggregate_id, st)
          else
            let es' := esSave st.event_store aggregate_id versioned_events
            match applyEvents ai aggregate versioned_events with
            | none => (.panic, { st with event_store := es' })
            | some aggregate' =>
              match consumersLoop proc st.consumer [] versioned_events with
              | (.error e, cs') => (.err e, { st with event_store := es', consumer := cs' })
              | (.ok to_dispatch, cs') =>
                match dispatchLoop sendOk st.sent to_dispatch with
                | (.error e, sent') =>
                  (.err e, { st with event_store := es', consumer := cs', sent := sent' })
                | (.ok _, sent') =>
                  match am.store st.snapshot_store aggregate' with
                  | .error e =>
                    (.err e, { st with event_store := es', consumer := cs', sent := sent' })
                  | .ok ss' =>
                    (.ok aggregate_id,
                      { event_store := es', snapshot_store := ss', consumer := cs', sent := sent' })

/-- A sequence of `Cqrs::execute` calls against the same identity, each
required to succeed: `none` when any call fails or panics. Each element of
the list is one command's handler (the command closed over the context). -/
def cqrsRunOk (am : AggregateManagerImpl A P SS) (ai : AggregateImpl A C E P)
    (proc : CS → Event P → Except CqrsError (CS × List M))
    (sendOk : M → Bool) (aggregate_id : String) :
    List (A → Except CqrsError (List (Event P))) → CqrsState P CS M SS →
      Option (CqrsState P CS M SS)
  | [], st => some st
  | h :: rest, st =>
    match cqrsExecute am ai h proc sendOk st aggregate_id with
    | (.ok _, st') => cqrsRunOk am ai proc sendOk aggregate_id rest st'
    | _ => none

/-- `true` exactly on a successful outcome. -/
def Outcome.isOk : Outcome ε α → Bool
  | .ok _ => true
  | _ => false

/-- `true` exactly on a `CommandValidation` error targeting `id`. -/
def Outcome.isCommandValidationErr (id : String) : Outcome CqrsError α → Bool
  | .err (.commandValidation aid _) => aid = id
  | _ => false

end MiniCqrs

namespace MiniCqrs

/-! ## Store and versioning lemmas -/

theorem esLookup_esSave_self (s : EventStoreState P) (id : String) (evs : List (Event P)) :
    esLookup (esSave s id evs) id = some ((esLookup s id).getD [] ++ evs) := by
  induction s with
  | nil => simp [esSave, esLookup]
  | cons kv rest ih =>
    obtain ⟨k, l⟩ := kv
    by_cases h : k = id
    · simp [esSave, esLookup, h]
    · simp [esSave, esLookup, h, ih]

theorem storedLog_esSave_self (s : EventStoreState P) (id : String) (evs : List (Event P)) :
    storedLog (esSave s id evs) id = storedLog s id ++ evs := by
  simp [storedLog, esLookup_esSave_self]

theorem loadEvents_ok_iff (s : EventStoreState P) (id : String) (l : List (Event P)) :
    loadEvents s id = .ok l ↔ esLookup s id = some l := by
  unfold loadEvents
  cases h : esLookup s id <;> simp

/-- The versions assigned by the versioning loop continue the counter:
on success the result's versions are the accumulator's followed by
`next, next+1, …`. -/
theorem versionEventsGo_ok_versions (aggregate_id : String) :
    ∀ (events acc out : List (Event P)) (next : Nat),
      versionEventsGo aggregate_id next acc events = .ok out →
      out.map (·.version) = acc.map (·.version) ++ List.range' next events.length := by
  intro events
  induction events with
  | nil =>
    intro acc out next h
    simp only [versionEventsGo] at h
    cases h
    simp
  | cons e rest ih =>
    intro acc out next h
    simp only [versionEventsGo] at h
    by_cases hid : e.aggregate_id ≠ aggregate_id
    · simp [hid] at h
    · simp only [hid, if_false] at h
      have := ih (acc ++ [{ e with version := next }]) out (next + 1) h
      simpa [List.range'_succ] using this

/-- A produced event tagged with a foreign aggregate id makes the
versioning loop fail with a `CommandValidation` error. -/
theorem versionEventsGo_mismatch (aggregate_id : String) :
    ∀ (events acc : List (Event P)) (next : Nat),
      (∃ e ∈ events, e.aggregate_id ≠ aggregate_id) →
      ∃ reason,
        versionEventsGo aggregate_id next acc events =
          .error (.commandValidation aggregate_id reason) := by
  intro events
  induction events with
  | nil => intro acc next h; simp at h
  | cons e rest ih =>
    intro acc next h
    by_cases hid : e.aggregate_id ≠ aggregate_id
    · exact ⟨"Event aggregate ID " ++ e.aggregate_id ++ " does not match target aggregate ID " ++
        aggregate_id, by simp [versionEventsGo, hid]⟩
    · obtain ⟨e', he', hne⟩ := h
      rcases List.mem_cons.mp he' with heq | htail
      · subst heq; exact absurd hne hid
      · obtain ⟨reason, hr⟩ := ih (acc ++ [{ e with version := next }]) (next + 1) ⟨e', htail, hne⟩
        exact ⟨reason, by simp [versionEventsGo, hid, hr]⟩

/-- When the stored versions are exactly `1..k`, the "current version"
computed by `Cqrs::execute` (`last().map_or(0, |e| e.version)`) is `k`. -/
theorem lastVersion_of_range' (prior : List (Event P)) (k : Nat)
    (h : prior.map (·.version) = List.range' 1 k) :
    prior.getLast?.elim 0 (·.version) = k := by
  cases k with
  | zero =>
    have : prior = [] := by simpa using h
    subst this; rfl
  | succ n =>
    have hlast : (prior.map (·.version)).getLast? = some (1 + n) := by
      rw [h, List.range'_1_concat, List.getLast?_concat]
    rw [List.getLast?_map] at hlast
    cases hp : prior.getLast? with
    | none => rw [hp] at hlast; simp at hlast
    | some e =>
      rw [hp] at hlast
      simp only [Option.map_some'] at hlast
      have : e.version = 1 + n := by simpa using hlast
      simp [Option.elim, this, Nat.add_comm]

/-- A payload that fails to decode makes `apply_events` panic (the
`unwrap` inside `Event::get_payload`), modelled as `none`. -/
theorem applyEvents_none_of_bad_payload (ai : AggregateImpl A C E P) :
    ∀ (events : List (Event P)) (a : A),
      (∃ e ∈ events, ai.get_payload e.payload = none) →
      applyEvents ai a events = none := by
  intro events
  induction events with
  | nil => intro a h; simp at h
  | cons e rest ih =>
    intro a h
    simp only [applyEvents, List.foldlM_cons]
    cases hd : ai.get_payload e.payload with
    | none => simp
    | some p =>
      obtain ⟨e', he', hne⟩ := h
      rcases List.mem_cons.mp he' with heq | htail
      · subst heq; rw [hd] at hne; cases hne
      · simpa [hd] using ih (ai.apply a p) ⟨e', htail, hne⟩

theorem ssLookup_ssSave_self (ss : SnapshotStoreState A) (snap : AggregateSnapshot A) :
    ssLookup (ssSave ss snap) snap.aggregate_id = some snap := by
  induction ss with
  | nil => simp [ssSave, ssLookup]
  | cons kv rest ih =>
    obtain ⟨k, s⟩ := kv
    by_cases h : k = snap.aggregate_id
    · simp [ssSave, ssLookup, h]
    · simp [ssSave, ssLookup, h, ih]

/-- One successful `Cqrs::execute` call preserves the "stored versions are
exactly `1..k`" invariant for the target identity: the new events are
appended with the consecutive versions continuing from the last stored
one. -/
theorem cqrsExecute_ok_gapless
    (am : AggregateManagerImpl A P SS) (ai : AggregateImpl A C E P)
    (handle : A → Except CqrsError (List (Event P)))
    (proc : CS → Event P → Except CqrsError (CS × List M)) (sendOk : M → Bool)
    (st st' : CqrsState P CS M SS) (id : String) (x : String)
    (hgap : storedVersions st.event_store id =
      List.range' 1 (storedLog st.event_store id).length)
    (hexec : cqrsExecute am ai handle proc sendOk st id = (.ok x, st')) :
    storedVersions st'.event_store id =
      List.range' 1 (storedLog st'.event_store id).length := by
  unfold cqrsExecute at hexec
  split at hexec
  · simp at hexec
  · simp at hexec
  case _ aggregate hload =>
  split at hexec
  · simp at hexec
  case _ prior hprior =>
  split at hexec
  · simp at hexec
  case _ new_events hhandle =>
  dsimp only at hexec
  split at hexec
  · simp at hexec
  case _ versioned hver =>
  have hlookup : esLookup st.event_store id = some prior := (loadEvents_ok_iff _ _ _).mp hprior
  have hlog : storedLog st.event_store id = prior := by simp [storedLog, hlookup]
  rw [hlog] at hgap
  have hmap : prior.map (·.version) = List.range' 1 prior.length := by
    simpa [storedVersions, hlog] using hgap
  have hcur : prior.getLast?.elim 0 (·.version) = prior.length :=
    lastVersion_of_range' prior prior.length hmap
  have hvv : versioned.map (·.version) =
      List.range' (prior.getLast?.elim 0 (·.version) + 1) new_events.length := by
    simpa using versionEventsGo_ok_versions id new_events [] versioned _ hver
  rw [hcur] at hvv
  by_cases hemp : versioned.isEmpty
  · rw [if_pos hemp] at hexec
    obtain ⟨-, rfl⟩ := Prod.mk.injEq .. ▸ hexec
    simpa [storedVersions, hlog] using hgap
  · rw [if_neg hemp] at hexec
    have hstore : st'.event_store = esSave st.event_store id versioned := by
      split at hexec
      · simp at hexec
      split at hexec
      · obtain ⟨-, rfl⟩ := Prod.mk.injEq .. ▸ hexec; rfl
      split at hexec
      · obtain ⟨-, rfl⟩ := Prod.mk.injEq .. ▸ hexec; rfl
      split at hexec
      · obtain ⟨-, rfl⟩ := Prod.mk.injEq .. ▸ hexec; rfl
      · obtain ⟨-, rfl⟩ := Prod.mk.injEq .. ▸ hexec; rfl
    have hlen : versioned.length = new_events.length := by
      have := congrArg List.length hvv
      simpa using this
    rw [hstore, storedVersions, storedLog_esSave_self, hlog]
    rw [List.map_append, hmap, hvv]
    have happ := List.range'_append 1 prior.length new_events.length 1
    simp only [Nat.one_mul] at happ
    rw [Nat.add_comm 1 prior.length] at happ
    rw [happ, List.length_append, hlen, Nat.add_comm]

end MiniCqrs

namespace MiniCqrs

/-! ## Shared concrete fixtures for the claims -/

def gp1 : Player := { id := "player_1", points := 0 }

def gp2 : Player := { id := "player_2", points := 0 }

/-- A consumers group that accepts every event and triggers no follow-up
commands. -/
def unitConsumerProc : Unit → Event GameJson → Except CqrsError (Unit × List Unit) :=
  fun _ _ => .ok ((), [])

/-- A consumers group whose processing always fails. -/
def failingConsumerProc : Unit → Event GameJson → Except CqrsError (Unit × List Unit) :=
  fun _ _ => .error (.generic "consumer failed")

/-- A `Cqrs` state whose event store has an empty (but present) log for
`"g1"` and nothing else. -/
def seededState : CqrsState GameJson Unit Unit (SnapshotStoreState GameState) :=
  { event_store := [("g1", [])], snapshot_store := [], consumer := (), sent := [] }

/-- An event history that replays to a finished game (goal 1, player 1
won). -/
def finishedEvents : List (Event GameJson) :=
  [(GameEvent.GameStarted "g1" gp1 gp2 1).intoEvent,
    (GameEvent.PlayerAttacked "g1" ⟨"player_1", 1⟩).intoEvent,
    (GameEvent.GameEndedWithWinner "g1" ⟨"player_1", 1⟩).intoEvent]

/-- The aggregate state obtained by replaying `finishedEvents`. -/
def finishedState : GameState :=
  { id := "g1", player_1 := ⟨"player_1", 1⟩, player_2 := gp2,
    status := .Winner ⟨"player_1", 1⟩, goal := 1 }

def finishedCqrsState : CqrsState GameJson Unit Unit (SnapshotStoreState GameState) :=
  { event_store := [("g1", finishedEvents)], snapshot_store := [], consumer := (), sent := [] }

def finishedDispatchState : SimpleDispatcherState GameJson Unit :=
  { event_store := [("g1", finishedEvents)], consumers := [] }

end MiniCqrs

namespace MiniCqrs

/-! ## C1 — version monotonicity -/

/-- C1 (amended): for the `Cqrs` orchestrator, from any store state whose
stored versions for the target identity are exactly `1..K` gapless, any
sequence of successful `execute` calls leaves the stored versions exactly
`1..K'` gapless with no repeats, `K'` being the new total number of stored
events (so the events produced by the calls got the consecutive versions
`K+1..K'`). The claim's extension to the `SimpleDispatcher` /
`SnapshotDispatcher` entry points is refuted by `C1_counterexample`. -/
theorem C1_cqrs_version_monotonicity
    (am : AggregateManagerImpl A P SS) (ai : AggregateImpl A C E P)
    (proc : CS → Event P → Except CqrsError (CS × List M)) (sendOk : M → Bool)
    (id : String) (handles : List (A → Except CqrsError (List (Event P))))
    (st st' : CqrsState P CS M SS)
    (hgap : storedVersions st.event_store id =
      List.range' 1 (storedLog st.event_store id).length)
    (hrun : cqrsRunOk am ai proc sendOk id handles st = some st') :
    storedVersions st'.event_store id =
      List.range' 1 (storedLog st'.event_store id).length := by
  induction handles generalizing st with
  | nil =>
    simp only [cqrsRunOk, Option.some.injEq] at hrun
    subst hrun; exact hgap
  | cons h rest ih =>
    simp only [cqrsRunOk] at hrun
    split at hrun
    case _ x st1 hexec =>
      exact ih st1 (cqrsExecute_ok_gapless am ai h proc sendOk st st1 id x hgap hexec) hrun
    case _ => cases hrun

def c1DispatchState : SimpleDispatcherState GameJson Unit :=
  { event_store := [], consumers := [] }

def c1Exec1 : Outcome CqrsError GameState × SimpleDispatcherState GameJson Unit :=
  simpleExecute gameImpl (fun c _ => c) c1DispatchState "g1" (.StartGame gp1 gp2 3)

def c1Exec2 : Outcome CqrsError GameState × SimpleDispatcherState GameJson Unit :=
  simpleExecute gameImpl (fun c _ => c) c1Exec1.2 "g1" (.AttackPlayer gp1)

/-- C1 (counterexample): two successful `SimpleDispatcher::execute` calls
against a fresh identity, each producing one event, leave stored versions
`[1, 1]` — a repeat — because `handle_command` saves the handler's events
without assigning versions and `Event::new` defaults every version to 1.
The claim demands `[1, 2]`. -/
theorem C1_counterexample :
    c1Exec1.1.isOk = true ∧ c1Exec2.1.isOk = true ∧
    storedVersions c1Exec2.2.event_store "g1" = [1, 1] ∧
    storedVersions c1Exec2.2.event_store "g1" ≠ [1, 2] := by
  refine ⟨rfl, rfl, rfl, by decide⟩

def c1CqrsState : CqrsState GameJson Unit Unit (SnapshotStoreState GameState) :=
  { event_store := [("g1", [])], snapshot_store := [], consumer := (), sent := [] }

def c1Handlers : List (GameState → Except CqrsError (List (Event GameJson))) :=
  [fun a => a.handle (.StartGame gp1 gp2 3), fun a => a.handle (.AttackPlayer gp1)]

def c1Final : CqrsState GameJson Unit Unit (SnapshotStoreState GameState) :=
  { event_store := [("g1",
      [{ id := "", event_type := "GameStarted", aggregate_id := "g1",
         payload := .game (.GameStarted "g1" gp1 gp2 3), version := 1 },
       { id := "", event_type := "PlayerAttacked", aggregate_id := "g1",
         payload := .game (.PlayerAttacked "g1" { id := "player_1", points := 1 }),
         version := 2 }])]
    snapshot_store := []
    consumer := ()
    sent := [] }

/-- C1 (witness): a concrete two-command `Cqrs` run — start the game, one
attack — from a seeded empty log ends with stored versions `[1, 2]`,
instantiating `C1_cqrs_version_monotonicity`. -/
theorem C1_cqrs_version_monotonicity_witness :
    cqrsRunOk (simpleAggregateManager gameImpl) gameImpl unitConsumerProc (fun _ => true) "g1"
      c1Handlers c1CqrsState = some c1Final ∧
    storedVersions c1Final.event_store "g1" =
      List.range' 1 (storedLog c1Final.event_store "g1").length :=
  ⟨by decide,
    C1_cqrs_version_monotonicity (simpleAggregateManager gameImpl) gameImpl unitConsumerProc
      (fun _ => true) "g1" c1Handlers c1CqrsState c1Final (by decide) (by decide)⟩

end MiniCqrs

namespace MiniCqrs

/-! ## C2 — command rejection has no side effects -/

/-- C2: when the command handler rejects (returns an error), `execute`
aborts with that very error and leaves the whole state untouched — the
event store is unchanged, no consumer processes anything, nothing is sent
on the command bus, and no snapshot is written — both for `Cqrs::execute`
(first conjunct; the handler error propagates before the versioning loop)
and for `SimpleDispatcher::execute` (second conjunct; the error propagates
before `save_events`). -/
theorem C2_rejection_no_side_effects
    (am : AggregateManagerImpl A P SS) (ai : AggregateImpl A C E P)
    (handle : A → Except CqrsError (List (Event P)))
    (proc : CS → Event P → Except CqrsError (CS × List M)) (sendOk : M → Bool)
    (st : CqrsState P CS M SS) (id : String) (aggregate : A)
    (prior : List (Event P)) (e : CqrsError)
    (hload : am.load st.event_store st.snapshot_store id = .ok aggregate)
    (hprior : loadEvents st.event_store id = .ok prior)
    (hhandle : handle aggregate = .error e)
    (dproc : DCS → Event P → DCS) (dst : SimpleDispatcherState P DCS) (did : String)
    (dagg : A) (command : C) (e2 : CqrsError)
    (hdload : simpleLoadAggregate ai dst.event_store did = some dagg)
    (hdhandle : ai.handle dagg command = .error e2) :
    cqrsExecute am ai handle proc sendOk st id = (.err e, st) ∧
    simpleExecute ai dproc dst did command = (.err e2, dst) := by
  constructor
  · simp only [cqrsExecute, hload, hprior, hhandle]
  · simp only [simpleExecute, hdload, hdhandle]

/-- C2 (witness): attacking an already-finished game is rejected by the
handler, and both entry points return exactly that error with the state
unchanged. -/
theorem C2_rejection_no_side_effects_witness :
    cqrsExecute (simpleAggregateManager gameImpl) gameImpl
      (fun a => a.handle (.AttackPlayer gp1)) unitConsumerProc (fun _ => true)
      finishedCqrsState "g1" =
      (.err (.generic "Game is already finished with state Winner"), finishedCqrsState) ∧
    simpleExecute gameImpl (fun (c : Unit) _ => c) finishedDispatchState "g1"
      (.AttackPlayer gp1) =
      (.err (.generic "Game is already finished with state Winner"), finishedDispatchState) :=
  C2_rejection_no_side_effects (simpleAggregateManager gameImpl) gameImpl
    (fun a => a.handle (.AttackPlayer gp1)) unitConsumerProc (fun _ => true)
    finishedCqrsState "g1" finishedState finishedEvents
    (.generic "Game is already finished with state Winner")
    rfl rfl rfl
    (fun (c : Unit) _ => c) finishedDispatchState "g1" finishedState (.AttackPlayer gp1)
    (.generic "Game is already finished with state Winner")
    rfl rfl

end MiniCqrs

namespace MiniCqrs

/-! ## C3 — aggregate-id mismatch guard -/

/-- C3: when the handler returns at least one event whose `aggregate_id`
differs from the target identity, `Cqrs::execute` fails with a
`CommandValidation` error for that identity and the state is unchanged —
the check happens inside the versioning loop, before `save_events` runs
for any produced event. -/
theorem C3_aggregate_id_mismatch_guard
    (am : AggregateManagerImpl A P SS) (ai : AggregateImpl A C E P)
    (handle : A → Except CqrsError (List (Event P)))
    (proc : CS → Event P → Except CqrsError (CS × List M)) (sendOk : M → Bool)
    (st : CqrsState P CS M SS) (id : String) (aggregate : A)
    (prior new_events : List (Event P))
    (hload : am.load st.event_store st.snapshot_store id = .ok aggregate)
    (hprior : loadEvents st.event_store id = .ok prior)
    (hhandle : handle aggregate = .ok new_events)
    (hmis : ∃ ev ∈ new_events, ev.aggregate_id ≠ id) :
    (cqrsExecute am ai handle proc sendOk st id).1.isCommandValidationErr id = true ∧
    (cqrsExecute am ai handle proc sendOk st id).2 = st := by
  obtain ⟨reason, hv⟩ :=
    versionEventsGo_mismatch id new_events [] (prior.getLast?.elim 0 (·.version) + 1) hmis
  constructor
  · simp only [cqrsExecute, hload, hprior, hhandle, versionEvents, hv]
    simp [Outcome.isCommandValidationErr]
  · simp only [cqrsExecute, hload, hprior, hhandle, versionEvents, hv]

/-- C3 (witness): a handler that emits an event tagged for aggregate
`"other"` while the target is `"g1"` makes `Cqrs::execute` fail with a
`CommandValidation` error and change nothing. -/
theorem C3_aggregate_id_mismatch_guard_witness :
    (cqrsExecute (simpleAggregateManager gameImpl) gameImpl
      (fun _ => .ok [(GameEvent.GameStarted "other" gp1 gp2 3).intoEvent])
      unitConsumerProc (fun _ => true) seededState "g1").1.isCommandValidationErr "g1" = true ∧
    (cqrsExecute (simpleAggregateManager gameImpl) gameImpl
      (fun _ => .ok [(GameEvent.GameStarted "other" gp1 gp2 3).intoEvent])
      unitConsumerProc (fun _ => true) seededState "g1").2 = seededState :=
  C3_aggregate_id_mismatch_guard (simpleAggregateManager gameImpl) gameImpl
    (fun _ => .ok [(GameEvent.GameStarted "other" gp1 gp2 3).intoEvent])
    unitConsumerProc (fun _ => true) seededState "g1"
    (gameImpl.set_aggregate_id GameState.default "g1") []
    [(GameEvent.GameStarted "other" gp1 gp2 3).intoEvent]
    rfl rfl rfl (by decide)

end MiniCqrs

namespace MiniCqrs

/-! ## C4 — persisted events survive later failures -/

/-- C4: once `Cqrs::execute` has reached the `save_events` step (the
handler succeeded, validation/versioning succeeded and produced a
non-empty batch — the in-memory save itself cannot fail), the final event
store is the old store with the versioned events appended and
`load_events` afterwards returns the prior events followed by the new
versioned events — whatever the consumers, the command bus or the snapshot
step subsequently do (all of them are universally quantified here), no
rollback occurs. -/
theorem C4_no_rollback_after_persist
    (am : AggregateManagerImpl A P SS) (ai : AggregateImpl A C E P)
    (handle : A → Except CqrsError (List (Event P)))
    (proc : CS → Event P → Except CqrsError (CS × List M)) (sendOk : M → Bool)
    (st : CqrsState P CS M SS) (id : String) (aggregate : A)
    (prior new_events versioned : List (Event P))
    (hload : am.load st.event_store st.snapshot_store id = .ok aggregate)
    (hprior : loadEvents st.event_store id = .ok prior)
    (hhandle : handle aggregate = .ok new_events)
    (hver : versionEvents id (prior.getLast?.elim 0 (·.version)) new_events = .ok versioned)
    (hne : versioned ≠ []) :
    (cqrsExecute am ai handle proc sendOk st id).2.event_store =
      esSave st.event_store id versioned ∧
    loadEvents (cqrsExecute am ai handle proc sendOk st id).2.event_store id =
      .ok (prior ++ versioned) := by
  have hfst : (cqrsExecute am ai handle proc sendOk st id).2.event_store =
      esSave st.event_store id versioned := by
    simp only [cqrsExecute, hload, hprior, hhandle, hver]
    rw [if_neg (by simpa [List.isEmpty_iff] using hne)]
    repeat first | rfl | split
  refine ⟨hfst, ?_⟩
  rw [hfst]
  have hl : esLookup (esSave st.event_store id versioned) id = some (prior ++ versioned) := by
    rw [esLookup_esSave_self, (loadEvents_ok_iff _ _ _).mp hprior]
    rfl
  simp [loadEvents, hl]

/-- C4 (witness): starting the game with a consumers group that always
fails still leaves the newly versioned `GameStarted` event durably in the
event store. -/
theorem C4_no_rollback_after_persist_witness :
    (cqrsExecute (simpleAggregateManager gameImpl) gameImpl
      (fun a => a.handle (.StartGame gp1 gp2 3)) failingConsumerProc (fun _ => true)
      seededState "g1").2.event_store =
      esSave seededState.event_store "g1" [(GameEvent.GameStarted "g1" gp1 gp2 3).intoEvent] ∧
    loadEvents (cqrsExecute (simpleAggregateManager gameImpl) gameImpl
      (fun a => a.handle (.StartGame gp1 gp2 3)) failingConsumerProc (fun _ => true)
      seededState "g1").2.event_store "g1" =
      .ok ([] ++ [(GameEvent.GameStarted "g1" gp1 gp2 3).intoEvent]) :=
  C4_no_rollback_after_persist (simpleAggregateManager gameImpl) gameImpl
    (fun a => a.handle (.StartGame gp1 gp2 3)) failingConsumerProc (fun _ => true)
    seededState "g1" (gameImpl.set_aggregate_id GameState.default "g1") []
    [(GameEvent.GameStarted "g1" gp1 gp2 3).intoEvent]
    [(GameEvent.GameStarted "g1" gp1 gp2 3).intoEvent]
    rfl rfl rfl rfl (by decide)

end MiniCqrs

namespace MiniCqrs

/-! ## C10 — an empty event batch is a complete no-op -/

/-- C10: when the handler returns an empty event list, `Cqrs::execute`
returns `Ok(aggregate_id)` and the state is completely unchanged: nothing
is saved, no consumer runs, nothing is sent on the bus, and the snapshot
step is skipped (the whole persistence block is guarded by
`!versioned_events.is_empty()`). -/
theorem C10_empty_events_is_noop
    (am : AggregateManagerImpl A P SS) (ai : AggregateImpl A C E P)
    (handle : A → Except CqrsError (List (Event P)))
    (proc : CS → Event P → Except CqrsError (CS × List M)) (sendOk : M → Bool)
    (st : CqrsState P CS M SS) (id : String) (aggregate : A) (prior : List (Event P))
    (hload : am.load st.event_store st.snapshot_store id = .ok aggregate)
    (hprior : loadEvents st.event_store id = .ok prior)
    (hhandle : handle aggregate = .ok []) :
    cqrsExecute am ai handle proc sendOk st id = (.ok id, st) := by
  simp [cqrsExecute, hload, hprior, hhandle, versionEvents, versionEventsGo]

/-- C10 (witness): a command handled to zero events on the seeded state
returns `Ok("g1")` and leaves the state untouched. -/
theorem C10_empty_events_is_noop_witness :
    cqrsExecute (simpleAggregateManager gameImpl) gameImpl (fun _ => .ok [])
      unitConsumerProc (fun _ => true) seededState "g1" = (.ok "g1", seededState) :=
  C10_empty_events_is_noop (simpleAggregateManager gameImpl) gameImpl (fun _ => .ok [])
    unitConsumerProc (fun _ => true) seededState "g1"
    (gameImpl.set_aggregate_id GameState.default "g1") []
    rfl rfl rfl

end MiniCqrs

namespace MiniCqrs

/-! ## C7 — snapshot store step always records version 1 -/

/-- C7: for every aggregate state (however many events produced it), the
snapshot-based manager's `store` saves `AggregateSnapshot::new(aggregate,
None)`, whose `version` field is 1 — it never carries the true post-event
version (`src/aggregate/manager.rs` lines 108-116). -/
theorem C7_snapshot_always_version_one (ai : AggregateImpl A C E P)
    (ss : SnapshotStoreState A) (aggregate : A) :
    (snapshotAggregateManager ai).store ss aggregate =
      .ok (ssSave ss (AggregateSnapshot.new ai.aggregate_id aggregate none)) ∧
    (AggregateSnapshot.new ai.aggregate_id aggregate none).version = 1 ∧
    ssLookup (ssSave ss (AggregateSnapshot.new ai.aggregate_id aggregate none))
      (ai.aggregate_id aggregate) =
      some (AggregateSnapshot.new ai.aggregate_id aggregate none) :=
  ⟨rfl, rfl, ssLookup_ssSave_self ss _⟩

end MiniCqrs

namespace MiniCqrs

/-! ## C5 — undecodable payloads in `apply_events` -/

/-- C5 (amended): when any envelope in the sequence has a payload that
does not decode as the aggregate's expected event type, `apply_events`
neither silently skips the event nor returns a `PayloadDeserialization`
error value — the `unwrap` inside `Event::get_payload`
(`src/event.rs` lines 29-31) panics, modelled here as the `none` result.
Only the spec's "richer variants" (absent from the source) make this a
fallible decode. -/
theorem C5_apply_events_panics_on_bad_payload (ai : AggregateImpl A C E P)
    (a : A) (events : List (Event P))
    (hbad : ∃ e ∈ events, ai.get_payload e.payload = none) :
    applyEvents ai a events = none :=
  applyEvents_none_of_bad_payload ai events a hbad

/-- An envelope whose payload is not a serialised `GameEvent`. -/
def badEvent : Event GameJson :=
  { id := "", event_type := "GameStarted", aggregate_id := "g1",
    payload := .other, version := 1 }

/-- C5 (counterexample): on a concrete undecodable envelope,
`apply_events` panics (`none`): it does not return at all, so it does not
return a `PayloadDeserialization`-class error as the claim states. -/
theorem C5_counterexample :
    applyEvents gameImpl GameState.default [badEvent] = none := rfl

/-- C5 (witness): the amended theorem applied to the concrete undecodable
envelope. -/
theorem C5_apply_events_panics_on_bad_payload_witness :
    applyEvents gameImpl GameState.default [badEvent] = none :=
  C5_apply_events_panics_on_bad_payload gameImpl GameState.default [badEvent]
    ⟨badEvent, by decide, rfl⟩

end MiniCqrs

namespace MiniCqrs

/-! ## C6 — snapshot-based load versus full replay -/

/-- The state reached by replaying one `GameStarted` event. -/
def c6Replayed : GameState :=
  { id := "g1", player_1 := gp1, player_2 := gp2, status := .Playing, goal := 3 }

def c6EventStore : EventStoreState GameJson :=
  [("g1", [(GameEvent.GameStarted "g1" gp1 gp2 3).intoEvent])]

/-- C6 (counterexample): with one stored `GameStarted` event and an empty
snapshot store, the full-replay manager loads the started game while the
snapshot manager falls back to a fresh default aggregate (it never replays
events), so the two loads differ. -/
theorem C6_counterexample :
    (simpleAggregateManager gameImpl : AggregateManagerImpl GameState GameJson (SnapshotStoreState GameState)).load
      c6EventStore [] "g1" = .ok c6Replayed ∧
    (snapshotAggregateManager gameImpl).load c6EventStore [] "g1" =
      .ok (gameImpl.set_aggregate_id GameState.default "g1") ∧
    c6Replayed ≠ gameImpl.set_aggregate_id GameState.default "g1" :=
  ⟨rfl, rfl, by decide⟩

/-- C6 (amended): the two managers load equal states exactly when the
snapshot store holds a snapshot for the identity whose payload equals the
full replay of the identity's stored events; absent such a snapshot the
snapshot manager returns a fresh default state and the equivalence fails
(see the counterexample). -/
theorem C6_snapshot_replay_equivalence (ai : AggregateImpl A C E P)
    (es : EventStoreState P) (ss : SnapshotStoreState A) (id : String)
    (events : List (Event P)) (a : A) (snap : AggregateSnapshot A)
    (hprior : loadEvents es id = .ok events)
    (hreplay : applyEvents ai (ai.set_aggregate_id ai.default id) events = some a)
    (hsnap : ssLookup ss id = some snap)
    (hpayload : snap.payload = a) :
    (snapshotAggregateManager ai).load es ss id =
      (simpleAggregateManager ai : AggregateManagerImpl A P (SnapshotStoreState A)).load es ss id ∧
    (snapshotAggregateManager ai).load es ss id = .ok a := by
  constructor
  · simp [snapshotAggregateManager, simpleAggregateManager, hprior, hreplay, hsnap, hpayload]
  · simp [snapshotAggregateManager, hsnap, hpayload]

/-- C6 (witness): with the snapshot store seeded with exactly the replayed
state, both managers load the same started game. -/
theorem C6_snapshot_replay_equivalence_witness :
    (snapshotAggregateManager gameImpl).load c6EventStore
      [("g1", { aggregate_id := "g1", payload := c6Replayed, version := 1 })] "g1" =
      (simpleAggregateManager gameImpl : AggregateManagerImpl GameState GameJson (SnapshotStoreState GameState)).load c6EventStore
        [("g1", { aggregate_id := "g1", payload := c6Replayed, version := 1 })] "g1" ∧
    (snapshotAggregateManager gameImpl).load c6EventStore
      [("g1", { aggregate_id := "g1", payload := c6Replayed, version := 1 })] "g1" =
      .ok c6Replayed :=
  C6_snapshot_replay_equivalence gameImpl c6EventStore
    [("g1", { aggregate_id := "g1", payload := c6Replayed, version := 1 })] "g1"
    [(GameEvent.GameStarted "g1" gp1 gp2 3).intoEvent] c6Replayed
    { aggregate_id := "g1", payload := c6Replayed, version := 1 }
    rfl rfl rfl rfl

end MiniCqrs

namespace MiniCqrs

/-! ## C8 — handling of "aggregate not found" -/

def c8FreshState : CqrsState GameJson Unit Unit (SnapshotStoreState GameState) :=
  { event_store := [], snapshot_store := [], consumer := (), sent := [] }

/-- C8 (counterexample): on a fresh identity with no stored events (and a
snapshot manager whose `load` succeeds with a default aggregate), the
current-version read inside `Cqrs::execute` propagates the store's "no
events" failure as a fatal `StoreOperation` error — this caller of
`load_events` does not treat the not-found condition as "start from empty
state", refuting the claim's "every caller". -/
theorem C8_counterexample :
    cqrsExecute (snapshotAggregateManager gameImpl) gameImpl
      (fun a => a.handle (.StartGame gp1 gp2 3)) unitConsumerProc (fun _ => true)
      c8FreshState "g1" =
      (.err (.storeOperation "g1" (.generic "No events for aggregate id `g1`")), c8FreshState) :=
  rfl

/-- C8 (amended): `SimpleDispatcher::load_aggregate` does treat a
`load_events` failure for an absent identity as "start from empty state"
(first conjunct), but `SimpleAggregateManager::load` propagates it (second
conjunct) and `Cqrs::execute`'s current-version read turns it into a fatal
`StoreOperation` error for the whole call (third conjunct). -/
theorem C8_not_found_handling (ai : AggregateImpl A C E P)
    (am : AggregateManagerImpl A P SS)
    (handle : A → Except CqrsError (List (Event P)))
    (proc : CS → Event P → Except CqrsError (CS × List M)) (sendOk : M → Bool)
    (st : CqrsState P CS M SS) (id : String) (aggregate : A)
    (es2 : EventStoreState P) (ss2 : SnapshotStoreState A)
    (hnone : esLookup st.event_store id = none)
    (hnone2 : esLookup es2 id = none)
    (hload : am.load st.event_store st.snapshot_store id = .ok aggregate) :
    simpleLoadAggregate ai es2 id = some (ai.set_aggregate_id ai.default id) ∧
    (simpleAggregateManager ai : AggregateManagerImpl A P (SnapshotStoreState A)).load es2 ss2 id =
      .err (.generic ("No events for aggregate id `" ++ id ++ "`")) ∧
    cqrsExecute am ai handle proc sendOk st id =
      (.err (.storeOperation id
        (.generic ("No events for aggregate id `" ++ id ++ "`"))), st) := by
  refine ⟨?_, ?_, ?_⟩
  · simp [simpleLoadAggregate, loadEvents, hnone2]
  · simp [simpleAggregateManager, loadEvents, hnone2]
  · simp [cqrsExecute, hload, loadEvents, hnone]

/-- C8 (witness): the amended theorem applied to the fresh store and the
snapshot manager. -/
theorem C8_not_found_handling_witness :
    simpleLoadAggregate gameImpl ([] : EventStoreState GameJson) "g1" =
      some (gameImpl.set_aggregate_id GameState.default "g1") ∧
    (simpleAggregateManager gameImpl : AggregateManagerImpl GameState GameJson (SnapshotStoreState GameState)).load [] [] "g1" =
      .err (.generic ("No events for aggregate id `" ++ "g1" ++ "`")) ∧
    cqrsExecute (snapshotAggregateManager gameImpl) gameImpl
      (fun a => a.handle (.StartGame gp1 gp2 3)) unitConsumerProc (fun _ => true)
      c8FreshState "g1" =
      (.err (.storeOperation "g1"
        (.generic ("No events for aggregate id `" ++ "g1" ++ "`"))), c8FreshState) :=
  C8_not_found_handling gameImpl (snapshotAggregateManager gameImpl)
    (fun a => a.handle (.StartGame gp1 gp2 3)) unitConsumerProc (fun _ => true)
    c8FreshState "g1" (gameImpl.set_aggregate_id GameState.default "g1") [] []
    rfl rfl rfl

end MiniCqrs

namespace MiniCqrs

/-! ## C9 — the Game end-to-end scenario -/

def c9S0 : GameState := gameImpl.set_aggregate_id GameState.default "g1"

def c9S1 : GameState :=
  { id := "g1", player_1 := gp1, player_2 := gp2, status := .Playing, goal := 3 }

def c9S2 : GameState := { c9S1 with player_1 := { id := "player_1", points := 1 } }

def c9S3 : GameState := { c9S1 with player_1 := { id := "player_1", points := 2 } }

def c9S4 : GameState :=
  { c9S1 with player_1 := { id := "player_1", points := 3 },
              status := .Winner { id := "player_1", points := 3 } }

/-- C9: on a fresh Game aggregate, `StartGame(player_1, player_2, goal=3)`
produces exactly one `GameStarted` event; each of three successive
`AttackPlayer{attacker: player_1}` commands adds one point to player 1,
the third returning `PlayerAttacked` followed by `GameEndedWithWinner` in
the same execution; once the winner event is applied, every further
command is rejected because the status is no longer `Playing`. -/
theorem C9_game_scenario :
    c9S0.handle (.StartGame gp1 gp2 3) =
      .ok [(GameEvent.GameStarted "g1" gp1 gp2 3).intoEvent] ∧
    applyEvents gameImpl c9S0 [(GameEvent.GameStarted "g1" gp1 gp2 3).intoEvent] = some c9S1 ∧
    c9S1.handle (.AttackPlayer gp1) =
      .ok [(GameEvent.PlayerAttacked "g1" ⟨"player_1", 1⟩).intoEvent] ∧
    applyEvents gameImpl c9S1 [(GameEvent.PlayerAttacked "g1" ⟨"player_1", 1⟩).intoEvent] =
      some c9S2 ∧
    c9S2.player_1.points = 1 ∧
    c9S2.handle (.AttackPlayer gp1) =
      .ok [(GameEvent.PlayerAttacked "g1" ⟨"player_1", 2⟩).intoEvent] ∧
    applyEvents gameImpl c9S2 [(GameEvent.PlayerAttacked "g1" ⟨"player_1", 2⟩).intoEvent] =
      some c9S3 ∧
    c9S3.player_1.points = 2 ∧
    c9S3.handle (.AttackPlayer gp1) =
      .ok [(GameEvent.PlayerAttacked "g1" ⟨"player_1", 3⟩).intoEvent,
        (GameEvent.GameEndedWithWinner "g1" ⟨"player_1", 3⟩).intoEvent] ∧
    applyEvents gameImpl c9S3
      [(GameEvent.PlayerAttacked "g1" ⟨"player_1", 3⟩).intoEvent,
        (GameEvent.GameEndedWithWinner "g1" ⟨"player_1", 3⟩).intoEvent] = some c9S4 ∧
    c9S4.player_1.points = 3 ∧
    c9S4.status = .Winner ⟨"player_1", 3⟩ ∧
    (∀ command : GameCommand,
      c9S4.handle command =
        .error (.generic ("Game is already finished with state " ++
          (GameStatus.Winner ⟨"player_1", 3⟩).name))) :=
  ⟨rfl, rfl, rfl, rfl, rfl, rfl, rfl, rfl, rfl, rfl, rfl, rfl, fun _ => rfl⟩

end MiniCqrs
